import Mathlib

/-! Shallow embedding of the fuel-fleet simulation engine
(`src/hooks/useTruckSimulation.ts`) and of the geofence geometry helpers
(`src/data/geofences.ts`) of the Feul_Demo repository.

Conventions of the embedding:
* JavaScript floating-point arithmetic is idealised as exact rational
  arithmetic (`ℚ`); the trigonometry of `haversineDistanceMeters` is
  idealised over the reals (`ℝ`).
* Every `Math.random()` call is modelled as an explicit draw `u ∈ [0,1)`
  supplied through a `TickRands` record, one named field per call site;
  call sites occurring once per compartment are indexed `ℕ → ℚ` by the
  compartment's position in the list.
* `Date` timestamps are modelled by the single natural number `now` of a
  tick; free-text log lists (`logs`, `deliveryLog`) and the `telemetry`
  record are omitted from the state because no field of the claims reads
  them (the incident branches that mutate telemetry are kept, since they
  emit alerts).
* The optional numeric compartment fields `targetDelivery` and
  `deliveredLiters` are always read through `x || 0` in the source, so
  they are modelled as plain rationals defaulting to 0.
-/

structure LatLng where
  lat : ℚ
  lng : ℚ
  deriving DecidableEq, Repr

/-- Destination object `{lat, lng, name}` as passed to `assignTrip` and
stored in `truck.destination`. -/
structure Destination where
  lat : ℚ
  lng : ℚ
  name : String
  deriving DecidableEq, Repr

/-- Truck lifecycle status (`Truck['status']` in `types/truck.ts`). -/
inductive TruckStatus where
  | idle
  | assigned
  | delivering
  | uplifting
  | completed
  deriving DecidableEq, Repr

/-- A fuel compartment of a truck. -/
structure Compartment where
  id : String
  capacity : ℚ
  currentLevel : ℚ
  fuelType : String
  isOffloading : Bool
  targetDelivery : ℚ := 0
  deliveredLiters : ℚ := 0
  deriving DecidableEq, Repr

/-- `truck.currentAssignment` (`startedAt` timestamp omitted). -/
structure CurrentAssignment where
  assignedLiters : ℚ
  perCompTargets : List (String × ℚ)
  provisionalLossLiters : ℚ
  deriving DecidableEq, Repr

/-- `truck.lastTripSummary` (`completedAt` timestamp omitted). -/
structure TripSummary where
  assignedLiters : ℚ
  deliveredLiters : ℚ
  lossLiters : ℚ
  lossPercent : ℚ
  deriving DecidableEq, Repr

structure Truck where
  id : String
  name : String
  status : TruckStatus
  position : LatLng
  destination : Option Destination := none
  startPoint : Option LatLng := none
  compartments : List Compartment
  currentAssignment : Option CurrentAssignment := none
  lastTripSummary : Option TripSummary := none
  trail : List LatLng := []
  deriving DecidableEq, Repr

inductive AlertType where
  | theft
  | tampering
  | offline
  | tilt
  | valve
  | loss
  deriving DecidableEq, Repr

inductive Severity where
  | low
  | medium
  | high
  deriving DecidableEq, Repr

structure Alert where
  id : String
  type : AlertType
  severity : Severity
  message : String
  timestamp : ℕ
  truckId : String
  acknowledged : Bool
  location : LatLng
  deriving DecidableEq, Repr

/-- One record of the `fuelLossHistory` stream. -/
structure FuelLossEntry where
  timestamp : ℕ
  truckId : String
  assignedLiters : ℚ
  deliveredLiters : ℚ
  lossLiters : ℚ
  lossPercent : ℚ
  deriving DecidableEq, Repr

/-- All `Math.random()` draws consumed by one tick of one truck, plus the
`Date.now()` value of the tick. -/
structure TickRands where
  now : ℕ
  totalAssignedU : ℚ
  targetU : ℕ → ℚ
  fillU : ℕ → ℚ
  drainU : ℕ → ℚ
  lossRollU : ℕ → ℚ
  lossPctU : ℕ → ℚ
  noiseLatU : ℚ
  noiseLngU : ℚ
  driftLatU : ℚ
  driftLngU : ℚ
  theftRollU : ℚ
  theftVictimU : ℚ
  theftAmountU : ℚ
  valveRollU : ℚ
  tiltRollU : ℚ
  offlineRollU : ℚ
  ambientRollU : ℚ
  ambientTypeU : ℚ
  ambientSev1U : ℚ
  ambientSev2U : ℚ

/-- A draw lies in the range `[0,1)` guaranteed by `Math.random()`. -/
def unitIv (u : ℚ) : Prop := 0 ≤ u ∧ u < 1

/-- Every draw of the tick lies in `[0,1)`. -/
def ValidRands (r : TickRands) : Prop :=
  unitIv r.totalAssignedU ∧ (∀ i, unitIv (r.targetU i)) ∧ (∀ i, unitIv (r.fillU i)) ∧
  (∀ i, unitIv (r.drainU i)) ∧ (∀ i, unitIv (r.lossRollU i)) ∧ (∀ i, unitIv (r.lossPctU i)) ∧
  unitIv r.noiseLatU ∧ unitIv r.noiseLngU ∧ unitIv r.driftLatU ∧ unitIv r.driftLngU ∧
  unitIv r.theftRollU ∧ unitIv r.theftVictimU ∧ unitIv r.theftAmountU ∧
  unitIv r.valveRollU ∧ unitIv r.tiltRollU ∧ unitIv r.offlineRollU ∧
  unitIv r.ambientRollU ∧ unitIv r.ambientTypeU ∧ unitIv r.ambientSev1U ∧ unitIv r.ambientSev2U

/-- JavaScript `list.slice(-n)`: the `min n length` last elements. -/
def jsSliceLast {α : Type} (n : ℕ) (l : List α) : List α :=
  l.drop (l.length - n)

/-- `setAlerts(prev => [newAlert, ...prev.slice(0, 49)])`. -/
def pushAlert (a : Alert) (alerts : List Alert) : List Alert :=
  a :: alerts.take 49

/-- `setFuelLossHistory(prev => [...prev.slice(-499), entry])`. -/
def pushFuelLoss (e : FuelLossEntry) (hist : List FuelLossEntry) : List FuelLossEntry :=
  jsSliceLast 499 hist ++ [e]

/-- `newTruck.trail = [...truck.trail.slice(-20), position]`. -/
def pushTrail (p : LatLng) (trail : List LatLng) : List LatLng :=
  jsSliceLast 20 trail ++ [p]

/-- `getAlertMessage` of `useTruckSimulation.ts`. -/
def getAlertMessage (t : AlertType) (truckName : String) : String :=
  match t with
  | .theft => "Possible fuel theft detected on " ++ truckName
  | .tampering => "Valve tampering detected on " ++ truckName
  | .tilt => "Unusual tilt angle detected on " ++ truckName
  | .valve => "Unauthorized valve operation on " ++ truckName
  | .loss => "Fuel loss detected on " ++ truckName
  | .offline => "Alert from " ++ truckName

/-- One step of the target-allocation loop of the `assigned` branch
(`useTruckSimulation.ts` lines 237-254): walks the compartments carrying
`remainingToAssign`, drawing `Math.floor(Math.random()*1500)+500` per
eligible compartment; returns the rewritten compartments and the final
`remainingToAssign`. -/
def allocateTargets (draw : ℕ → ℚ) : ℕ → ℚ → List Compartment → List Compartment × ℚ
  | _, remaining, [] => ([], remaining)
  | i, remaining, c :: cs =>
    if 0 < remaining ∧ c.capacity * 0.1 < c.currentLevel then
      let maxFromThisComp := min remaining (c.currentLevel - c.capacity * 0.05)
      let assignedAmount := min maxFromThisComp ((⌊draw i * 1500⌋ : ℤ) + 500)
      let rest := allocateTargets draw (i + 1) (remaining - assignedAmount) cs
      ({ c with targetDelivery := assignedAmount, deliveredLiters := 0,
                isOffloading := decide (0 < assignedAmount) } :: rest.1, rest.2)
    else
      let rest := allocateTargets draw (i + 1) remaining cs
      ({ c with targetDelivery := 0, deliveredLiters := 0, isOffloading := false } :: rest.1,
       rest.2)

/-- The `assigned` branch (lines 229-269): status becomes `delivering`,
a total of `Math.floor(Math.random()*2500)+2500` liters is drawn, the
per-compartment targets are allocated and `currentAssignment` is created
(`perCompTargets` records every compartment's written `targetDelivery`,
mirroring the `perCompTargets[comp.id] = …` assignments). -/
def assignedStep (r : TickRands) (t : Truck) : Truck :=
  let totalAssigned : ℚ := ((⌊r.totalAssignedU * 2500⌋ : ℤ) : ℚ) + 2500
  let alloc := allocateTargets r.targetU 0 totalAssigned t.compartments
  { t with status := .delivering,
           compartments := alloc.1,
           currentAssignment := some
             { assignedLiters := totalAssigned,
               perCompTargets := alloc.1.map (fun c => (c.id, c.targetDelivery)),
               provisionalLossLiters := 0 } }

/-- Refill of one compartment in the `uplifting` branch (lines 274-293):
compartments below 98% capacity gain `Math.floor(Math.random()*40)+40`
liters capped at capacity; `deliveredLiters` is reset either way. -/
def upliftComp (u : ℚ) (c : Compartment) : Compartment :=
  if c.currentLevel < c.capacity * 0.98 then
    let fillAmount : ℚ := ((⌊u * 40⌋ : ℤ) : ℚ) + 40
    let newLevel := min c.capacity (c.currentLevel + fillAmount)
    { c with currentLevel := newLevel, deliveredLiters := 0 }
  else
    { c with deliveredLiters := 0 }

/-- `truck.compartments.map(...)` of the `uplifting` branch, with a fresh
draw per compartment. -/
def upliftComps (fill : ℕ → ℚ) : ℕ → List Compartment → List Compartment
  | _, [] => []
  | i, c :: cs => upliftComp (fill i) c :: upliftComps fill (i + 1) cs

/-- The `uplifting` branch (lines 271-305): refill, then if every
compartment is at ≥ 95% capacity go `idle` and clear `destination` and
`startPoint`. -/
def upliftStep (r : TickRands) (t : Truck) : Truck :=
  let comps := upliftComps r.fillU 0 t.compartments
  let allFull := comps.all (fun c => decide (c.capacity * 0.95 ≤ c.currentLevel))
  if allFull then
    { t with compartments := comps, status := .idle, destination := none, startPoint := none }
  else
    { t with compartments := comps }

/-- The `completed` branch (lines 306-313): move to `uplifting`, clear
offloading flags and targets (note: `deliveredLiters` is kept). -/
def completedStep (t : Truck) : Truck :=
  { t with status := .uplifting,
           compartments := t.compartments.map
             (fun c => { c with isOffloading := false, targetDelivery := 0 }) }

/-- Random position drift of the final `else` branch (lines 314-320). -/
def driftStep (r : TickRands) (t : Truck) : Truck :=
  { t with position :=
      { lat := t.position.lat + (r.driftLatU - 0.5) * 0.0001,
        lng := t.position.lng + (r.driftLngU - 0.5) * 0.0001 } }

/-- Movement toward the destination in the `delivering` branch
(lines 156-161): 1% of the remaining vector plus noise. -/
def moveToward (r : TickRands) (pos : LatLng) (dest : Destination) : LatLng :=
  { lat := pos.lat + (dest.lat - pos.lat) * 0.01 + (r.noiseLatU - 0.5) * 0.001,
    lng := pos.lng + (dest.lng - pos.lng) * 0.01 + (r.noiseLngU - 0.5) * 0.001 }

/-- Arrival test (lines 164-169): `Math.sqrt(dLat² + dLng²) < 0.005`,
stated equivalently without the square root as `dLat² + dLng² < 0.005²`
(both sides of the source comparison are nonnegative). -/
def reachedDest (pos : LatLng) (dest : Destination) : Bool :=
  decide ((pos.lat - dest.lat) ^ 2 + (pos.lng - dest.lng) ^ 2 < 0.005 ^ 2)

/-- `newTruck.compartments.reduce((sum, comp) => sum + (comp.deliveredLiters || 0), 0)`. -/
def sumDelivered (comps : List Compartment) : ℚ :=
  comps.foldl (fun sum c => sum + c.deliveredLiters) 0

/-- Drain of one offloading compartment during `delivering`
(lines 349-430): drain `min(drainRate, remaining, currentLevel - 5%
reserve)` when positive; on reaching the target (or the reserve) finish
offloading and, with probability 0.3, inject a shrinkage loss of
`Math.round(target * lossPercent / 100)` liters, `lossPercent ∈ [0.5, 2.5)`.
Returns the new compartment and `some (lossLiters, lossPercent)` when a
loss was injected. -/
def drainComp (uRate uRoll uPct : ℚ) (c : Compartment) : Compartment × Option (ℚ × ℚ) :=
  if c.isOffloading ∧ 0 < c.currentLevel ∧ c.deliveredLiters < c.targetDelivery then
    let drainRate : ℚ := ((⌊uRate * 40⌋ : ℤ) : ℚ) + 20
    let remaining := c.targetDelivery - c.deliveredLiters
    let reserve := c.capacity * 0.05
    let maxDrain := min (min drainRate remaining) (c.currentLevel - reserve)
    if 0 < maxDrain then
      let newLevel := c.currentLevel - maxDrain
      let newDelivered := c.deliveredLiters + maxDrain
      if c.targetDelivery ≤ newDelivered ∨ newLevel ≤ reserve then
        if uRoll < 0.3 then
          let lossPercent := uPct * 2 + 0.5
          let compLossLiters : ℚ := ((round (c.targetDelivery * lossPercent / 100) : ℤ) : ℚ)
          ({ c with currentLevel := newLevel, deliveredLiters := newDelivered,
                    isOffloading := false },
           some (compLossLiters, lossPercent))
        else
          ({ c with currentLevel := newLevel, deliveredLiters := newDelivered,
                    isOffloading := false }, none)
      else
        ({ c with currentLevel := newLevel, deliveredLiters := newDelivered }, none)
    else (c, none)
  else (c, none)

/-- The compartment-loss alert of lines 376-388. -/
def compLossAlert (r : TickRands) (t : Truck) (compId : String) (lossPct : ℚ) : Alert :=
  { id := "alert-" ++ toString r.now ++ "-comp-loss",
    type := .loss,
    severity := if 2 < lossPct then .medium else .low,
    message := "Compartment " ++ compId ++ " loss on " ++ t.name,
    timestamp := r.now,
    truckId := t.id,
    acknowledged := false,
    location := t.position }

/-- The drain map over all compartments (lines 349-430), threading the
assignment's `provisionalLossLiters` and the alert stream through the
per-compartment loss events. -/
def drainComps (r : TickRands) (t : Truck) :
    ℕ → List Compartment → Option CurrentAssignment → List Alert →
    List Compartment × Option CurrentAssignment × List Alert
  | _, [], asg, alerts => ([], asg, alerts)
  | i, c :: cs, asg, alerts =>
    let res := drainComp (r.drainU i) (r.lossRollU i) (r.lossPctU i) c
    match res.2 with
    | some lp =>
      let asg1 := match asg with
        | some a => some { a with provisionalLossLiters := a.provisionalLossLiters + lp.1 }
        | none => none
      let alerts1 := if 10 < lp.1 ∨ 1 < lp.2
        then pushAlert (compLossAlert r t c.id lp.2) alerts else alerts
      let rest := drainComps r t (i + 1) cs asg1 alerts1
      (res.1 :: rest.1, rest.2)
    | none =>
      let rest := drainComps r t (i + 1) cs asg alerts
      (res.1 :: rest.1, rest.2)

/-- The theft alert of lines 445-456. -/
def theftAlert (r : TickRands) (t : Truck) (compId : String) : Alert :=
  { id := "alert-" ++ toString r.now ++ "-theft",
    type := .theft,
    severity := .high,
    message := "Sudden drop " ++ compId ++ " (possible theft)",
    timestamp := r.now,
    truckId := t.id,
    acknowledged := false,
    location := t.position }

/-- Theft event during delivery (lines 433-462): with probability 0.005,
pick a random actively-offloading compartment and subtract
`Math.floor(Math.random()*100)+50` liters, clamped at 0. -/
def theftPhase (r : TickRands) (t : Truck) (comps : List Compartment) (alerts : List Alert) :
    List Compartment × List Alert :=
  if r.theftRollU < 0.005 then
    let activeComps := comps.filter (fun c => c.isOffloading)
    if 0 < activeComps.length then
      match activeComps.get? (⌊r.theftVictimU * activeComps.length⌋).toNat with
      | some victim =>
        let stolenAmount : ℚ := ((⌊r.theftAmountU * 100⌋ : ℤ) : ℚ) + 50
        (comps.map (fun c =>
          if c.id = victim.id
          then { c with currentLevel := max 0 (c.currentLevel - stolenAmount) }
          else c),
         pushAlert (theftAlert r t victim.id) alerts)
      | none => (comps, alerts)
    else (comps, alerts)
  else (comps, alerts)

/-- The valve-fault alert of lines 465-483. -/
def valveAlert (r : TickRands) (t : Truck) : Alert :=
  { id := "alert-" ++ toString r.now ++ "-valve",
    type := .valve,
    severity := .medium,
    message := "Valve fault detected on " ++ t.name,
    timestamp := r.now,
    truckId := t.id,
    acknowledged := false,
    location := t.position }

/-- The excessive-tilt alert of lines 486-504. -/
def tiltAlert (r : TickRands) (t : Truck) : Alert :=
  { id := "alert-" ++ toString r.now ++ "-tilt",
    type := .tilt,
    severity := .medium,
    message := "Excessive tilt detected on " ++ t.name,
    timestamp := r.now,
    truckId := t.id,
    acknowledged := false,
    location := t.position }

/-- The offline-during-uplift alert of lines 511-529. -/
def offlineAlert (r : TickRands) (t : Truck) : Alert :=
  { id := "alert-" ++ toString r.now ++ "-offline",
    type := .offline,
    severity := .high,
    message := "Telematics offline during fueling: " ++ t.name,
    timestamp := r.now,
    truckId := t.id,
    acknowledged := false,
    location := t.position }

/-- The ambient random alert of lines 538-554. -/
def ambientAlert (r : TickRands) (t : Truck) (pos : LatLng) : Alert :=
  let alertType := [AlertType.theft, AlertType.tampering, AlertType.tilt,
    AlertType.valve].getD (⌊r.ambientTypeU * 4⌋).toNat AlertType.theft
  { id := "alert-" ++ toString r.now ++ "-rand",
    type := alertType,
    severity := if 0.7 < r.ambientSev1U then .high
      else if 0.4 < r.ambientSev2U then .medium else .low,
    message := getAlertMessage alertType t.name,
    timestamp := r.now,
    truckId := t.id,
    acknowledged := false,
    location := pos }

/-- The trip-loss alert of lines 202-215. -/
def tripLossAlert (r : TickRands) (t : Truck) (lossPct : ℚ) : Alert :=
  { id := "alert-" ++ toString r.now ++ "-loss",
    type := .loss,
    severity := if 5 < lossPct then .high else .medium,
    message := "Fuel loss detected on " ++ t.name,
    timestamp := r.now,
    truckId := t.id,
    acknowledged := false,
    location := t.position }

/-- The status-dispatch `if/else if` chain of lines 155-320, in source
order: `delivering`-with-destination first (movement, arrival, trip
summary, history append, trip-loss alert), then `assigned`, `uplifting`,
`completed`, and the drift `else`. -/
def statusPhase (r : TickRands) (t : Truck) (alerts : List Alert) (hist : List FuelLossEntry) :
    Truck × List Alert × List FuelLossEntry :=
  match t.status, t.destination with
  | .delivering, some dest =>
    let pos := moveToward r t.position dest
    if reachedDest pos dest then
      let t1 := { t with position := pos, status := .completed }
      match t.currentAssignment with
      | some asg =>
        let deliveredLiters := sumDelivered t.compartments
        let lossLiters := asg.provisionalLossLiters
        let lossPercent := if 0 < asg.assignedLiters
          then lossLiters / asg.assignedLiters * 100 else 0
        let summary : TripSummary :=
          { assignedLiters := asg.assignedLiters, deliveredLiters := deliveredLiters,
            lossLiters := lossLiters, lossPercent := lossPercent }
        let t2 := { t1 with lastTripSummary := some summary }
        let hist1 := pushFuelLoss
          { timestamp := r.now, truckId := t.id, assignedLiters := asg.assignedLiters,
            deliveredLiters := deliveredLiters, lossLiters := lossLiters,
            lossPercent := lossPercent } hist
        let alerts1 := if 2.5 < lossPercent
          then pushAlert (tripLossAlert r t2 lossPercent) alerts else alerts
        (t2, alerts1, hist1)
      | none => (t1, alerts, hist)
    else ({ t with position := pos }, alerts, hist)
  | .assigned, _ => (assignedStep r t, alerts, hist)
  | .uplifting, _ => (upliftStep r t, alerts, hist)
  | .completed, _ => (completedStep t, alerts, hist)
  | .delivering, none => (driftStep r t, alerts, hist)
  | .idle, _ => (driftStep r t, alerts, hist)

/-- The delivery-only section of lines 346-508 (guarded by the truck's
pre-tick status): drain all compartments, then the theft, valve-fault and
tilt incident rolls. -/
def deliverPhase (r : TickRands) (t : Truck) (alerts : List Alert) : Truck × List Alert :=
  let drained := drainComps r t 0 t.compartments t.currentAssignment alerts
  let theft := theftPhase r t drained.1 drained.2.2
  let alerts3 := if r.valveRollU < 0.003 then pushAlert (valveAlert r t) theft.2 else theft.2
  let alerts4 := if r.tiltRollU < 0.002 then pushAlert (tiltAlert r t) alerts3 else alerts3
  ({ t with compartments := theft.1, currentAssignment := drained.2.1 }, alerts4)

/-- One simulation tick for one truck (the body of `prevTrucks.map` in
lines 151-568), acting on the truck together with the global `alerts`
and `fuelLossHistory` streams. Phases in source order: status dispatch;
drain/incidents when the pre-tick status was `delivering`; the offline
roll when it was `uplifting`; the trail append; the ambient alert roll.
(The telemetry refresh and the `fuelConsumptionData` stream touch no
field a claim mentions and are omitted.) -/
def tickTruck (r : TickRands) (t : Truck) (alerts : List Alert) (hist : List FuelLossEntry) :
    Truck × List Alert × List FuelLossEntry :=
  let s := statusPhase r t alerts hist
  let d := if t.status = .delivering then deliverPhase r s.1 s.2.1 else (s.1, s.2.1)
  let alerts2 := if t.status = .uplifting ∧ r.offlineRollU < 0.001
    then pushAlert (offlineAlert r d.1) d.2 else d.2
  let t3 := { d.1 with trail := pushTrail d.1.position t.trail }
  let alerts3 := if r.ambientRollU < 0.01
    then pushAlert (ambientAlert r t t3.position) alerts2 else alerts2
  (t3, alerts3, s.2.2)

/-- `acknowledgeAlert` (lines 596-600). -/
def acknowledgeAlert (alertId : String) (alerts : List Alert) : List Alert :=
  alerts.map (fun a => if a.id = alertId then { a with acknowledged := true } else a)

/-- `assignTrip` (lines 602-613). -/
def assignTrip (truckId : String) (destination : Destination) (trucks : List Truck) :
    List Truck :=
  trucks.map (fun t =>
    if t.id = truckId
    then { t with status := .assigned, destination := some destination,
                  startPoint := some t.position }
    else t)

/-- Iterated ticks of one truck with a stream of per-tick draws
(alerts/history inputs do not influence the truck component, so the
iteration runs the truck against empty streams). -/
def tickIter (R : ℕ → TickRands) : ℕ → Truck → Truck
  | 0, t => t
  | n + 1, t => tickIter (fun k => R (k + 1)) n (tickTruck (R 0) t [] []).1

/-- Number of refill ticks the termination bound of the specification
grants one compartment: `⌈(capacity × 0.95 − currentLevel) / 40⌉`,
truncated at 0. (Specification-side quantity, used only in theorem
statements about `upliftStep`.) -/
def needTicks (c : Compartment) : ℕ :=
  (⌈(c.capacity * 0.95 - c.currentLevel) / 40⌉).toNat

/-- Worst case of `needTicks` over a truck's compartments. -/
def upliftBound (t : Truck) : ℕ :=
  (t.compartments.map needTicks).foldr max 0

/-- A point for the real-valued geometry of `geofences.ts`. -/
structure RPoint where
  lat : ℝ
  lng : ℝ

/-- JavaScript `Math.atan2(y, x)` (idealised over `ℝ`). -/
noncomputable def atan2 (y x : ℝ) : ℝ :=
  if 0 < x then Real.arctan (y / x)
  else if x < 0 then
    (if 0 ≤ y then Real.arctan (y / x) + Real.pi else Real.arctan (y / x) - Real.pi)
  else
    (if 0 < y then Real.pi / 2 else if y < 0 then -(Real.pi / 2) else 0)

/-- `haversineDistanceMeters` of `geofences.ts` (lines 131-150): standard
haversine great-circle distance with mean Earth radius 6,371,000 m. -/
noncomputable def haversineDistanceMeters (a b : RPoint) : ℝ :=
  let R : ℝ := 6371000
  let dLat := (b.lat - a.lat) * Real.pi / 180
  let dLng := (b.lng - a.lng) * Real.pi / 180
  let lat1 := a.lat * Real.pi / 180
  let lat2 := b.lat * Real.pi / 180
  let sinDLat := Real.sin (dLat / 2)
  let sinDLng := Real.sin (dLng / 2)
  let hh := sinDLat * sinDLat + Real.cos lat1 * Real.cos lat2 * sinDLng * sinDLng
  let c := 2 * atan2 (Real.sqrt hh) (Real.sqrt (1 - hh))
  R * c

/-- Fixture: a draw record with every draw 1/2 (no probabilistic incident
branch fires at 1/2). -/
def rHalf : TickRands where
  now := 0
  totalAssignedU := 0.5
  targetU := fun _ => 0.5
  fillU := fun _ => 0.5
  drainU := fun _ => 0.5
  lossRollU := fun _ => 0.5
  lossPctU := fun _ => 0.5
  noiseLatU := 0.5
  noiseLngU := 0.5
  driftLatU := 0.5
  driftLngU := 0.5
  theftRollU := 0.5
  theftVictimU := 0.5
  theftAmountU := 0.5
  valveRollU := 0.5
  tiltRollU := 0.5
  offlineRollU := 0.5
  ambientRollU := 0.5
  ambientTypeU := 0.5
  ambientSev1U := 0.5
  ambientSev2U := 0.5

/-- Fixture: draws for which the assigned-branch total is
`⌊0.9*2500⌋+2500 = 4750` while every per-compartment draw is
`⌊0*1500⌋+500 = 500`. -/
def rLowTargets : TickRands :=
  { rHalf with totalAssignedU := 0.9, targetU := fun _ => 0 }

/-- Fixture: destination used by the sample trucks (Shell Station Qurum). -/
def destQurum : Destination := ⟨23.6025, 58.4375, "Shell Station Qurum"⟩

/-- Fixture: an `assigned` truck with a single compartment, level 4800 of
5000. -/
def truckOneComp : Truck :=
  { id := "TK101", name := "Fuel Express 101", status := .assigned,
    position := ⟨23.5859, 58.4059⟩, destination := some destQurum,
    compartments := [⟨"C1", 5000, 4800, "Diesel", false, 0, 0⟩],
    trail := [⟨23.5859, 58.4059⟩] }

/-- Fixture: an `assigned` truck patterned on demo truck TK003. -/
def truckAssignedW : Truck :=
  { id := "TK003", name := "Fuel Express 03", status := .assigned,
    position := ⟨23.5790, 58.3770⟩, destination := some destQurum,
    compartments :=
      [⟨"C1", 5000, 5000, "Diesel", false, 0, 0⟩,
       ⟨"C2", 5000, 5000, "Petrol", false, 0, 0⟩,
       ⟨"C3", 5000, 4800, "Diesel", false, 0, 0⟩,
       ⟨"C4", 5000, 4900, "Petrol", false, 0, 0⟩],
    trail := [⟨23.5790, 58.3770⟩] }

/-- Fixture: an `idle` truck whose trail already holds 20 entries. -/
def truckTrail20 : Truck :=
  { id := "TK102", name := "Fuel Express 102", status := .idle,
    position := ⟨23.5859, 58.4059⟩,
    compartments := [⟨"C1", 5000, 4800, "Diesel", false, 0, 0⟩],
    trail := List.replicate 20 ⟨23.5859, 58.4059⟩ }

/-- Fixture: a `delivering` truck with one offloading compartment,
patterned on demo truck TK002. -/
def truckDelivering : Truck :=
  { id := "TK002", name := "Fuel Express 02", status := .delivering,
    position := ⟨23.5850, 58.3950⟩, destination := some ⟨23.5850, 58.4000, "BP Al Khuwair"⟩,
    compartments :=
      [⟨"C1", 5000, 4200, "Diesel", true, 2000, 0⟩,
       ⟨"C2", 5000, 3800, "Petrol", false, 0, 0⟩],
    currentAssignment := some ⟨2000, [("C1", 2000)], 0⟩,
    trail := [⟨23.5850, 58.3950⟩] }

/-- Fixture: a `delivering` truck standing on its destination, holding a
current assignment. -/
def truckArrive : Truck :=
  { id := "TK103", name := "Fuel Express 103", status := .delivering,
    position := ⟨23.6025, 58.4375⟩, destination := some destQurum,
    compartments := [⟨"C1", 5000, 2750, "Diesel", false, 2000, 2000⟩],
    currentAssignment := some ⟨3000, [("C1", 2000)], 30⟩,
    trail := [⟨23.6025, 58.4375⟩] }

/-- Fixture: a `delivering` truck standing on its destination without a
current assignment (like demo truck TK002 at seed time). -/
def truckArriveNoAsg : Truck :=
  { id := "TK104", name := "Fuel Express 104", status := .delivering,
    position := ⟨23.6025, 58.4375⟩, destination := some destQurum,
    compartments := [⟨"C1", 5000, 3800, "Petrol", false, 0, 0⟩],
    currentAssignment := none,
    trail := [⟨23.6025, 58.4375⟩] }

/-- Fixture: an `uplifting` truck with part-full compartments, patterned
on demo truck TK005. -/
def truckUplift : Truck :=
  { id := "TK005", name := "Fuel Express 05", status := .uplifting,
    position := ⟨23.5932, 58.2845⟩,
    compartments :=
      [⟨"C1", 5000, 3200, "Diesel", false, 0, 0⟩,
       ⟨"C2", 5000, 2800, "Petrol", false, 0, 0⟩],
    trail := [⟨23.5932, 58.2845⟩] }

/-- Fixture: an `uplifting` truck whose compartments are already full. -/
def truckUpliftFull : Truck :=
  { id := "TK105", name := "Fuel Express 105", status := .uplifting,
    position := ⟨23.5932, 58.2845⟩,
    compartments := [⟨"C1", 5000, 5000, "Diesel", false, 0, 0⟩],
    trail := [⟨23.5932, 58.2845⟩] }

/-- Fixture: an unacknowledged alert with id `a1`. -/
def alertA : Alert :=
  { id := "a1", type := .theft, severity := .high,
    message := "Possible fuel theft detected on Fuel Express 01",
    timestamp := 17, truckId := "TK001", acknowledged := false,
    location := ⟨23.5859, 58.4059⟩ }

/-- Fixture: a second unacknowledged alert with id `a2`. -/
def alertB : Alert :=
  { id := "a2", type := .valve, severity := .medium,
    message := "Valve fault detected on Fuel Express 02",
    timestamp := 18, truckId := "TK002", acknowledged := false,
    location := ⟨23.5850, 58.3950⟩ }

/-- Fixture: a compartment mid-delivery (capacity 5000, level 4800,
target 2000, delivered 1200). -/
def compMid : Compartment := ⟨"C1", 5000, 4800, "Diesel", true, 2000, 1200⟩

theorem unitIv_half : unitIv 0.5 := by norm_num [unitIv]

theorem validRands_rHalf : ValidRands rHalf := by
  refine ⟨?_, ?_, ?_, ?_, ?_, ?_, ?_, ?_, ?_, ?_, ?_, ?_, ?_, ?_, ?_, ?_, ?_, ?_, ?_, ?_⟩ <;>
    first
      | exact unitIv_half
      | exact fun i => unitIv_half

theorem validRands_rLowTargets : ValidRands rLowTargets := by
  refine ⟨?_, ?_, ?_, ?_, ?_, ?_, ?_, ?_, ?_, ?_, ?_, ?_, ?_, ?_, ?_, ?_, ?_, ?_, ?_, ?_⟩ <;>
    first
      | exact (by norm_num [unitIv, rLowTargets, rHalf])
      | exact fun i => (by norm_num [unitIv, rLowTargets, rHalf])

theorem atan2_zero_one : atan2 0 1 = 0 := by
  unfold atan2
  rw [if_pos one_pos]
  simp [Real.arctan_zero]

/-- C9: `haversineDistanceMeters` returns 0 on identical points and is
symmetric in its two arguments. -/
theorem haversine_self_and_symm (a b : RPoint) :
    haversineDistanceMeters a a = 0 ∧
    haversineDistanceMeters a b = haversineDistanceMeters b a := by
  constructor
  · unfold haversineDistanceMeters
    simp only [sub_self, zero_mul, zero_div, Real.sin_zero, mul_zero, zero_add, add_zero,
      Real.sqrt_zero, sub_zero, Real.sqrt_one, atan2_zero_one]
  · unfold haversineDistanceMeters
    dsimp only
    have h1 : (a.lat - b.lat) * Real.pi / 180 / 2 = -((b.lat - a.lat) * Real.pi / 180 / 2) := by
      ring
    have h2 : (a.lng - b.lng) * Real.pi / 180 / 2 = -((b.lng - a.lng) * Real.pi / 180 / 2) := by
      ring
    rw [h1, h2, Real.sin_neg, Real.sin_neg]
    ring_nf

theorem sub_min_reserve {x y lvl res : ℚ} (h : res ≤ lvl) :
    res ≤ lvl - min (min x y) (lvl - res) := by
  have := min_le_right (min x y) (lvl - res)
  linarith

/-- C10: the per-tick compartment drain step never takes a level below the
5% reserve: if `capacity * 0.05 ≤ currentLevel` before `drainComp` (whose
drain amount is capped at `currentLevel - capacity * 0.05`), the same
bound holds afterwards; the capacity itself is unchanged. -/
theorem drainComp_keeps_reserve (uRate uRoll uPct : ℚ) (c : Compartment)
    (h : c.capacity * 0.05 ≤ c.currentLevel) :
    (drainComp uRate uRoll uPct c).1.capacity = c.capacity ∧
    c.capacity * 0.05 ≤ (drainComp uRate uRoll uPct c).1.currentLevel := by
  unfold drainComp
  dsimp only
  split_ifs <;>
    refine ⟨rfl, ?_⟩ <;>
    first
      | exact h
      | exact sub_min_reserve h

/-- Witness for `drainComp_keeps_reserve` at the mid-delivery fixture
compartment and draw 1/2. -/
theorem drainComp_keeps_reserve_witness :
    compMid.capacity * 0.05 ≤ compMid.currentLevel ∧
    ((drainComp 0.5 0.5 0.5 compMid).1.capacity = compMid.capacity ∧
     compMid.capacity * 0.05 ≤ (drainComp 0.5 0.5 0.5 compMid).1.currentLevel) :=
  ⟨by norm_num [compMid], drainComp_keeps_reserve 0.5 0.5 0.5 compMid (by norm_num [compMid])⟩

/-- C7: `assignTrip` is a no-op when no truck carries the id, and on the
truck(s) carrying the id it sets status `assigned`, the destination and
`startPoint := position`, leaving every other field and every other truck
unchanged. -/
theorem assignTrip_spec (truckId : String) (dest : Destination) (trucks : List Truck) :
    ((∀ t ∈ trucks, t.id ≠ truckId) → assignTrip truckId dest trucks = trucks) ∧
    List.Forall₂ (fun t u =>
      if t.id = truckId then
        u.status = TruckStatus.assigned ∧ u.destination = some dest ∧
        u.startPoint = some t.position ∧ u.id = t.id ∧ u.name = t.name ∧
        u.position = t.position ∧ u.compartments = t.compartments ∧
        u.currentAssignment = t.currentAssignment ∧
        u.lastTripSummary = t.lastTripSummary ∧ u.trail = t.trail
      else u = t) trucks (assignTrip truckId dest trucks) := by
  induction trucks with
  | nil => exact ⟨fun _ => rfl, List.Forall₂.nil⟩
  | cons t ts ih =>
    constructor
    · intro h
      have ht : ¬ t.id = truckId := h t (List.mem_cons_self t ts)
      have hts := ih.1 (fun x hx => h x (List.mem_cons_of_mem t hx))
      simp only [assignTrip, List.map_cons, if_neg ht]
      simp only [assignTrip] at hts
      rw [hts]
    · simp only [assignTrip, List.map_cons]
      refine List.Forall₂.cons ?_ ih.2
      by_cases hid : t.id = truckId
      · simp [hid]
      · simp [hid]

/-- Witness for `assignTrip_spec`: the no-op hypothesis discharged at a
one-truck fleet and an id no truck carries. -/
theorem assignTrip_spec_witness :
    assignTrip "TKX" destQurum [truckUplift] = [truckUplift] :=
  (assignTrip_spec "TKX" destQurum [truckUplift]).1 (by decide)

/-- C8: `acknowledgeAlert` sets `acknowledged := true` on the alert(s)
with the given id, changes no other field and no other alert, preserves
the list length, is idempotent, and is a no-op for an unknown id. -/
theorem acknowledgeAlert_spec (alertId : String) (alerts : List Alert) :
    List.Forall₂ (fun a b =>
      if a.id = alertId then
        b.acknowledged = true ∧ b.id = a.id ∧ b.type = a.type ∧ b.severity = a.severity ∧
        b.message = a.message ∧ b.timestamp = a.timestamp ∧ b.truckId = a.truckId ∧
        b.location = a.location
      else b = a) alerts (acknowledgeAlert alertId alerts) ∧
    (acknowledgeAlert alertId alerts).length = alerts.length ∧
    acknowledgeAlert alertId (acknowledgeAlert alertId alerts) =
      acknowledgeAlert alertId alerts ∧
    ((∀ a ∈ alerts, a.id ≠ alertId) → acknowledgeAlert alertId alerts = alerts) := by
  refine ⟨?_, ?_, ?_, ?_⟩
  · induction alerts with
    | nil => exact List.Forall₂.nil
    | cons a as ih =>
      simp only [acknowledgeAlert, List.map_cons]
      refine List.Forall₂.cons ?_ ih
      by_cases hid : a.id = alertId
      · simp [hid]
      · simp [hid]
  · simp [acknowledgeAlert]
  · induction alerts with
    | nil => rfl
    | cons a as ih =>
      by_cases hid : a.id = alertId
      · simpa [acknowledgeAlert, hid] using ih
      · simpa [acknowledgeAlert, hid] using ih
  · intro h
    induction alerts with
    | nil => rfl
    | cons a as ih =>
      have ha : ¬ a.id = alertId := h a (List.mem_cons_self a as)
      have has := ih (fun x hx => h x (List.mem_cons_of_mem a hx))
      simp only [acknowledgeAlert, List.map_cons, if_neg ha]
      simp only [acknowledgeAlert] at has
      rw [has]

/-- Witness for `acknowledgeAlert_spec`: the unknown-id hypothesis
discharged at a two-alert list and an id neither alert carries. -/
theorem acknowledgeAlert_spec_witness :
    acknowledgeAlert "zz" [alertA, alertB] = [alertA, alertB] :=
  (acknowledgeAlert_spec "zz" [alertA, alertB]).2.2.2 (by decide)

theorem min_min_le_left {a b x : ℚ} : min (min a b) x ≤ a :=
  le_trans (min_le_left _ _) (min_le_left _ _)

theorem allocateTargets_remaining_nonneg (draw : ℕ → ℚ) :
    ∀ (cs : List Compartment) (i : ℕ) (rem : ℚ), 0 ≤ rem →
      0 ≤ (allocateTargets draw i rem cs).2 := by
  intro cs
  induction cs with
  | nil =>
    intro i rem h
    simpa [allocateTargets] using h
  | cons c cs ih =>
    intro i rem h
    simp only [allocateTargets]
    split_ifs with hc
    · dsimp only
      exact ih _ _ (sub_nonneg.mpr min_min_le_left)
    · dsimp only
      exact ih _ _ h

theorem allocateTargets_sum (draw : ℕ → ℚ) :
    ∀ (cs : List Compartment) (i : ℕ) (rem : ℚ),
      (((allocateTargets draw i rem cs).1.map (fun c => c.targetDelivery)).sum =
        rem - (allocateTargets draw i rem cs).2) := by
  intro cs
  induction cs with
  | nil =>
    intro i rem
    simp [allocateTargets]
  | cons c cs ih =>
    intro i rem
    simp only [allocateTargets]
    split_ifs with hc
    · dsimp only
      simp only [List.map_cons, List.sum_cons]
      rw [ih]
      ring
    · dsimp only
      simp only [List.map_cons, List.sum_cons]
      rw [ih]
      ring

theorem allocateTargets_offloading (draw : ℕ → ℚ) :
    ∀ (cs : List Compartment) (i : ℕ) (rem : ℚ),
      ∀ x ∈ (allocateTargets draw i rem cs).1, (x.isOffloading = true ↔ 0 < x.targetDelivery) := by
  intro cs
  induction cs with
  | nil =>
    intro i rem x hx
    simp [allocateTargets] at hx
  | cons c cs ih =>
    intro i rem x hx
    simp only [allocateTargets] at hx
    split_ifs at hx with hc
    · dsimp only at hx
      rcases List.mem_cons.mp hx with hh | hh
      · subst hh
        simp
      · exact ih _ _ x hh
    · dsimp only at hx
      rcases List.mem_cons.mp hx with hh | hh
      · subst hh
        simp
      · exact ih _ _ x hh

theorem totalAssigned_range {u : ℚ} (hu : unitIv u) :
    2500 ≤ ((⌊u * 2500⌋ : ℤ) : ℚ) + 2500 ∧ ((⌊u * 2500⌋ : ℤ) : ℚ) + 2500 ≤ 5000 := by
  obtain ⟨h0, h1⟩ := hu
  have hfl : (0 : ℤ) ≤ ⌊u * 2500⌋ := Int.floor_nonneg.mpr (by nlinarith)
  have hfu : ⌊u * 2500⌋ < 2500 := Int.floor_lt.mpr (by push_cast; nlinarith)
  constructor
  · have hc : (0 : ℚ) ≤ ((⌊u * 2500⌋ : ℤ) : ℚ) := by exact_mod_cast hfl
    linarith
  · have hle : ⌊u * 2500⌋ ≤ 2499 := by omega
    have hc : ((⌊u * 2500⌋ : ℤ) : ℚ) ≤ 2499 := by exact_mod_cast hle
    linarith

theorem tickTruck_assigned (r : TickRands) (t : Truck) (al : List Alert)
    (hi : List FuelLossEntry) (h : t.status = .assigned) :
    (tickTruck r t al hi).1 =
      { assignedStep r t with
        trail := pushTrail (assignedStep r t).position t.trail } := by
  obtain ⟨tid, tname, tstatus, tpos, tdest, tsp, tcomps, tca, tlts, ttrail⟩ := t
  dsimp only at h
  subst h
  cases tdest <;> rfl

/-- C1 (amended): a tick of an `assigned` truck unconditionally sets its
status to `delivering` and creates a `currentAssignment` whose
`assignedLiters` lies between 2500 and 5000; the per-compartment delivery
targets allocated on that tick sum to at most `assignedLiters` (the
allocation loop may stop short of the total, so equality can fail), and
exactly the compartments that received a positive target are marked
`isOffloading`. -/
theorem assigned_tick_spec (r : TickRands) (t : Truck) (al : List Alert)
    (hi : List FuelLossEntry) (hv : ValidRands r) (h : t.status = .assigned) :
    (tickTruck r t al hi).1.status = TruckStatus.delivering ∧
    ∃ a : CurrentAssignment,
      (tickTruck r t al hi).1.currentAssignment = some a ∧
      2500 ≤ a.assignedLiters ∧ a.assignedLiters ≤ 5000 ∧
      (((tickTruck r t al hi).1.compartments.map (fun c => c.targetDelivery)).sum ≤
        a.assignedLiters) ∧
      ∀ c ∈ (tickTruck r t al hi).1.compartments,
        (c.isOffloading = true ↔ 0 < c.targetDelivery) := by
  have hrange := totalAssigned_range hv.1
  rw [tickTruck_assigned r t al hi h]
  refine ⟨rfl, ⟨_, rfl, ?_, ?_, ?_, ?_⟩⟩
  · exact hrange.1
  · exact hrange.2
  · show ((allocateTargets r.targetU 0 (((⌊r.totalAssignedU * 2500⌋ : ℤ) : ℚ) + 2500)
        t.compartments).1.map (fun c => c.targetDelivery)).sum ≤
      ((⌊r.totalAssignedU * 2500⌋ : ℤ) : ℚ) + 2500
    rw [allocateTargets_sum]
    have h0 := allocateTargets_remaining_nonneg r.targetU t.compartments 0
      (((⌊r.totalAssignedU * 2500⌋ : ℤ) : ℚ) + 2500) (by linarith [hrange.1])
    linarith
  · exact allocateTargets_offloading r.targetU t.compartments 0 _

/-- Counterexample to C1 as stated: with draws `rLowTargets` on the
one-compartment `assigned` fixture, the tick sets `assignedLiters = 4750`
but the allocated targets sum to 500: the targets do not sum to
`assignedLiters`. -/
theorem assigned_tick_sum_counterexample :
    (tickTruck rLowTargets truckOneComp [] []).1.status = TruckStatus.delivering ∧
    ((tickTruck rLowTargets truckOneComp [] []).1.currentAssignment.map
      (fun a => a.assignedLiters)) = some 4750 ∧
    (((tickTruck rLowTargets truckOneComp [] []).1.compartments.map
      (fun c => c.targetDelivery)).sum = 500) := by
  have ht := tickTruck_assigned rLowTargets truckOneComp [] [] rfl
  rw [ht]
  refine ⟨rfl, ?_, ?_⟩ <;>
    norm_num [assignedStep, allocateTargets, truckOneComp, rLowTargets, rHalf]

/-- Witness for `assigned_tick_spec` at the TK003-patterned fixture and
draw 1/2. -/
theorem assigned_tick_spec_witness :
    ValidRands rHalf ∧ truckAssignedW.status = TruckStatus.assigned ∧
    (tickTruck rHalf truckAssignedW [] []).1.status = TruckStatus.delivering :=
  ⟨validRands_rHalf, rfl, (assigned_tick_spec rHalf truckAssignedW [] [] validRands_rHalf rfl).1⟩

theorem tickTruck_idle (r : TickRands) (t : Truck) (al : List Alert)
    (hi : List FuelLossEntry) (h : t.status = .idle) :
    (tickTruck r t al hi).1 =
      { driftStep r t with trail := pushTrail (driftStep r t).position t.trail } := by
  obtain ⟨tid, tname, tstatus, tpos, tdest, tsp, tcomps, tca, tlts, ttrail⟩ := t
  dsimp only at h
  subst h
  cases tdest <;> rfl

theorem tickTruck_completed (r : TickRands) (t : Truck) (al : List Alert)
    (hi : List FuelLossEntry) (h : t.status = .completed) :
    (tickTruck r t al hi).1 =
      { completedStep t with trail := pushTrail (completedStep t).position t.trail } := by
  obtain ⟨tid, tname, tstatus, tpos, tdest, tsp, tcomps, tca, tlts, ttrail⟩ := t
  dsimp only at h
  subst h
  cases tdest <;> rfl

theorem tickTruck_uplifting (r : TickRands) (t : Truck) (al : List Alert)
    (hi : List FuelLossEntry) (h : t.status = .uplifting) :
    (tickTruck r t al hi).1 =
      { upliftStep r t with trail := pushTrail (upliftStep r t).position t.trail } := by
  obtain ⟨tid, tname, tstatus, tpos, tdest, tsp, tcomps, tca, tlts, ttrail⟩ := t
  dsimp only at h
  subst h
  cases tdest <;> rfl

theorem tickTruck_delivering_truck (r : TickRands) (t : Truck) (al : List Alert)
    (hi : List FuelLossEntry) (h : t.status = .delivering) :
    (tickTruck r t al hi).1 =
      { (deliverPhase r (statusPhase r t al hi).1 (statusPhase r t al hi).2.1).1 with
        trail := pushTrail
          (deliverPhase r (statusPhase r t al hi).1 (statusPhase r t al hi).2.1).1.position
          t.trail } := by
  obtain ⟨tid, tname, tstatus, tpos, tdest, tsp, tcomps, tca, tlts, ttrail⟩ := t
  dsimp only at h
  subst h
  cases tdest <;> rfl

theorem statusPhase_delivering_fields (r : TickRands) (t : Truck) (al : List Alert)
    (hi : List FuelLossEntry) (h : t.status = .delivering) :
    (statusPhase r t al hi).1.compartments = t.compartments ∧
    (statusPhase r t al hi).1.currentAssignment = t.currentAssignment := by
  obtain ⟨tid, tname, tstatus, tpos, tdest, tsp, tcomps, tca, tlts, ttrail⟩ := t
  dsimp only at h
  subst h
  cases tdest with
  | none => exact ⟨rfl, rfl⟩
  | some dest =>
    simp only [statusPhase]
    split
    · cases tca <;> exact ⟨rfl, rfl⟩
    · exact ⟨rfl, rfl⟩

theorem add_min_min_le {d t x y : ℚ} (hdt : d < t) : d + min (min x (t - d)) y ≤ t := by
  have h1 : min (min x (t - d)) y ≤ t - d := le_trans (min_le_left _ _) (min_le_right _ _)
  linarith

theorem drainComp_delivered_le (uRate uRoll uPct : ℚ) (c : Compartment)
    (h : 0 < c.targetDelivery → c.deliveredLiters ≤ c.targetDelivery) :
    0 < (drainComp uRate uRoll uPct c).1.targetDelivery →
      (drainComp uRate uRoll uPct c).1.deliveredLiters ≤
        (drainComp uRate uRoll uPct c).1.targetDelivery := by
  unfold drainComp
  dsimp only
  split_ifs with h1 h2 h3 h4 <;> intro hpos <;>
    first
      | exact h hpos
      | exact add_min_min_le h1.2.2

theorem allocateTargets_delivered_zero (draw : ℕ → ℚ) :
    ∀ (cs : List Compartment) (i : ℕ) (rem : ℚ),
      ∀ x ∈ (allocateTargets draw i rem cs).1, x.deliveredLiters = 0 := by
  intro cs
  induction cs with
  | nil =>
    intro i rem x hx
    simp [allocateTargets] at hx
  | cons c cs ih =>
    intro i rem x hx
    simp only [allocateTargets] at hx
    split_ifs at hx <;> dsimp only at hx <;>
      rcases List.mem_cons.mp hx with hh | hh <;>
      first
        | (subst hh; rfl)
        | exact ih _ _ x hh

theorem upliftComps_delivered_zero (fill : ℕ → ℚ) :
    ∀ (cs : List Compartment) (i : ℕ), ∀ x ∈ upliftComps fill i cs, x.deliveredLiters = 0 := by
  intro cs
  induction cs with
  | nil =>
    intro i x hx
    simp [upliftComps] at hx
  | cons c cs ih =>
    intro i x hx
    simp only [upliftComps] at hx
    rcases List.mem_cons.mp hx with hh | hh
    · subst hh
      unfold upliftComp
      split_ifs <;> rfl
    · exact ih _ x hh

theorem drainComps_delivered_le (r : TickRands) (t : Truck) :
    ∀ (cs : List Compartment) (i : ℕ) (asg : Option CurrentAssignment) (al : List Alert),
      (∀ c ∈ cs, 0 < c.targetDelivery → c.deliveredLiters ≤ c.targetDelivery) →
      ∀ c ∈ (drainComps r t i cs asg al).1,
        0 < c.targetDelivery → c.deliveredLiters ≤ c.targetDelivery := by
  intro cs
  induction cs with
  | nil =>
    intro i asg al h x hx
    simp [drainComps] at hx
  | cons c cs ih =>
    intro i asg al h x hx
    simp only [drainComps] at hx
    rcases hd : (drainComp (r.drainU i) (r.lossRollU i) (r.lossPctU i) c).2 with _ | lp <;>
      rw [hd] at hx <;> dsimp only at hx <;>
      rcases List.mem_cons.mp hx with hh | hh
    · subst hh
      exact drainComp_delivered_le _ _ _ c (h c (List.mem_cons_self c cs))
    · exact ih _ _ _ (fun x hx => h x (List.mem_cons_of_mem c hx)) x hh
    · subst hh
      exact drainComp_delivered_le _ _ _ c (h c (List.mem_cons_self c cs))
    · exact ih _ _ _ (fun x hx => h x (List.mem_cons_of_mem c hx)) x hh

theorem upliftStep_compartments (r : TickRands) (t : Truck) :
    (upliftStep r t).compartments = upliftComps r.fillU 0 t.compartments := by
  unfold upliftStep
  dsimp only
  split <;> rfl

theorem theftPhase_delivered (r : TickRands) (t : Truck) (comps : List Compartment)
    (alerts : List Alert)
    (h : ∀ c ∈ comps, 0 < c.targetDelivery → c.deliveredLiters ≤ c.targetDelivery) :
    ∀ c ∈ (theftPhase r t comps alerts).1,
      0 < c.targetDelivery → c.deliveredLiters ≤ c.targetDelivery := by
  unfold theftPhase
  split_ifs with h1 h2 <;>
    try exact h
  rcases hv : (List.filter (fun c => c.isOffloading) comps).get?
      (⌊r.theftVictimU * ((List.filter (fun c => c.isOffloading) comps).length : ℚ)⌋).toNat
    with _ | victim <;> simp only [hv]
  · split_ifs with h2 <;> exact h
  · split_ifs with h2
    · intro x hx
      rcases List.mem_map.mp hx with ⟨c, hc, rfl⟩
      split
      · exact h c hc
      · exact h c hc
    · exact h

/-- C4: across a tick, every compartment with a set (positive) delivery
target keeps `deliveredLiters ≤ targetDelivery`: the drain increment is
`min(drainRate, targetDelivery - deliveredLiters, currentLevel - 0.05 *
capacity)`, applied only when positive, and the tick's other branches
reset `deliveredLiters` to 0 whenever they (re)write a target. -/
theorem delivered_le_target_invariant (r : TickRands) (t : Truck) (al : List Alert)
    (hi : List FuelLossEntry)
    (h : ∀ c ∈ t.compartments, 0 < c.targetDelivery → c.deliveredLiters ≤ c.targetDelivery) :
    ∀ c ∈ (tickTruck r t al hi).1.compartments,
      0 < c.targetDelivery → c.deliveredLiters ≤ c.targetDelivery := by
  rcases hs : t.status with _ | _ | _ | _ | _
  · rw [tickTruck_idle r t al hi hs]
    exact h
  · rw [tickTruck_assigned r t al hi hs]
    intro c hc hpos
    have hz := allocateTargets_delivered_zero r.targetU t.compartments 0 _ c hc
    rw [hz]
    linarith
  · rw [tickTruck_delivering_truck r t al hi hs]
    have hf := statusPhase_delivering_fields r t al hi hs
    show ∀ c ∈ (theftPhase r (statusPhase r t al hi).1
        (drainComps r (statusPhase r t al hi).1 0 (statusPhase r t al hi).1.compartments
          (statusPhase r t al hi).1.currentAssignment (statusPhase r t al hi).2.1).1
        (drainComps r (statusPhase r t al hi).1 0 (statusPhase r t al hi).1.compartments
          (statusPhase r t al hi).1.currentAssignment (statusPhase r t al hi).2.1).2.2).1,
      0 < c.targetDelivery → c.deliveredLiters ≤ c.targetDelivery
    apply theftPhase_delivered
    apply drainComps_delivered_le
    rw [hf.1]
    exact h
  · rw [tickTruck_uplifting r t al hi hs]
    intro c hc hpos
    have hc' : c ∈ upliftComps r.fillU 0 t.compartments := by
      rw [← upliftStep_compartments r t]
      exact hc
    have hz := upliftComps_delivered_zero r.fillU t.compartments 0 c hc'
    rw [hz]
    linarith
  · rw [tickTruck_completed r t al hi hs]
    intro c hc hpos
    rcases List.mem_map.mp hc with ⟨x, hx, rfl⟩
    simp at hpos

/-- Witness for `delivered_le_target_invariant` at the TK002-patterned
delivering fixture and draw 1/2. -/
theorem delivered_le_target_invariant_witness :
    (∀ c ∈ truckDelivering.compartments,
      0 < c.targetDelivery → c.deliveredLiters ≤ c.targetDelivery) ∧
    (∀ c ∈ (tickTruck rHalf truckDelivering [] []).1.compartments,
      0 < c.targetDelivery → c.deliveredLiters ≤ c.targetDelivery) :=
  ⟨by norm_num [truckDelivering],
   delivered_le_target_invariant rHalf truckDelivering [] []
     (by norm_num [truckDelivering])⟩

theorem level_after_drain {lvl cap m : ℚ} (h0 : 0 ≤ lvl) (hc : lvl ≤ cap)
    (hm : m ≤ lvl - cap * 0.05) (hpos : 0 < m) : 0 ≤ lvl - m ∧ lvl - m ≤ cap := by
  constructor <;> linarith

theorem drainComp_bounds (uRate uRoll uPct : ℚ) (c : Compartment)
    (h : 0 ≤ c.currentLevel ∧ c.currentLevel ≤ c.capacity) :
    0 ≤ (drainComp uRate uRoll uPct c).1.currentLevel ∧
    (drainComp uRate uRoll uPct c).1.currentLevel ≤ (drainComp uRate uRoll uPct c).1.capacity := by
  unfold drainComp
  dsimp only
  split_ifs with h1 h2 h3 h4 <;>
    first
      | exact h
      | exact level_after_drain h.1 h.2 (min_le_right _ _) h2

theorem allocateTargets_levels (draw : ℕ → ℚ) :
    ∀ (cs : List Compartment) (i : ℕ) (rem : ℚ),
      ∀ x ∈ (allocateTargets draw i rem cs).1,
        ∃ c ∈ cs, x.currentLevel = c.currentLevel ∧ x.capacity = c.capacity := by
  intro cs
  induction cs with
  | nil =>
    intro i rem x hx
    simp [allocateTargets] at hx
  | cons c cs ih =>
    intro i rem x hx
    simp only [allocateTargets] at hx
    split_ifs at hx <;> dsimp only at hx <;>
      rcases List.mem_cons.mp hx with hh | hh <;>
      first
        | (subst hh; exact ⟨c, List.mem_cons_self c cs, rfl, rfl⟩)
        | (obtain ⟨cx, hcx, he⟩ := ih _ _ x hh;
           exact ⟨cx, List.mem_cons_of_mem c hcx, he⟩)

theorem upliftComp_bounds {u : ℚ} (hu : 0 ≤ u) (c : Compartment)
    (h : 0 ≤ c.currentLevel ∧ c.currentLevel ≤ c.capacity) :
    0 ≤ (upliftComp u c).currentLevel ∧
    (upliftComp u c).currentLevel ≤ (upliftComp u c).capacity := by
  unfold upliftComp
  dsimp only
  split_ifs with h1
  · constructor
    · apply le_min
      · linarith [h.1, h.2]
      · have hfl : (0:ℚ) ≤ ((⌊u * 40⌋ : ℤ) : ℚ) := by
          exact_mod_cast Int.floor_nonneg.mpr (by nlinarith)
        linarith [h.1]
    · exact min_le_left _ _
  · exact h

theorem upliftComps_bounds (fill : ℕ → ℚ) (hf : ∀ i, 0 ≤ fill i) :
    ∀ (cs : List Compartment) (i : ℕ),
      (∀ c ∈ cs, 0 ≤ c.currentLevel ∧ c.currentLevel ≤ c.capacity) →
      ∀ x ∈ upliftComps fill i cs, 0 ≤ x.currentLevel ∧ x.currentLevel ≤ x.capacity := by
  intro cs
  induction cs with
  | nil =>
    intro i h x hx
    simp [upliftComps] at hx
  | cons c cs ih =>
    intro i h x hx
    simp only [upliftComps] at hx
    rcases List.mem_cons.mp hx with hh | hh
    · subst hh
      exact upliftComp_bounds (hf i) c (h c (List.mem_cons_self c cs))
    · exact ih _ (fun y hy => h y (List.mem_cons_of_mem c hy)) x hh

theorem drainComps_bounds (r : TickRands) (t : Truck) :
    ∀ (cs : List Compartment) (i : ℕ) (asg : Option CurrentAssignment) (al : List Alert),
      (∀ c ∈ cs, 0 ≤ c.currentLevel ∧ c.currentLevel ≤ c.capacity) →
      ∀ c ∈ (drainComps r t i cs asg al).1,
        0 ≤ c.currentLevel ∧ c.currentLevel ≤ c.capacity := by
  intro cs
  induction cs with
  | nil =>
    intro i asg al h x hx
    simp [drainComps] at hx
  | cons c cs ih =>
    intro i asg al h x hx
    simp only [drainComps] at hx
    rcases hd : (drainComp (r.drainU i) (r.lossRollU i) (r.lossPctU i) c).2 with _ | lp <;>
      rw [hd] at hx <;> dsimp only at hx <;>
      rcases List.mem_cons.mp hx with hh | hh
    · subst hh
      exact drainComp_bounds _ _ _ c (h c (List.mem_cons_self c cs))
    · exact ih _ _ _ (fun y hy => h y (List.mem_cons_of_mem c hy)) x hh
    · subst hh
      exact drainComp_bounds _ _ _ c (h c (List.mem_cons_self c cs))
    · exact ih _ _ _ (fun y hy => h y (List.mem_cons_of_mem c hy)) x hh

theorem theftPhase_bounds (r : TickRands) (t : Truck) (comps : List Compartment)
    (alerts : List Alert) (hu : 0 ≤ r.theftAmountU)
    (h : ∀ c ∈ comps, 0 ≤ c.currentLevel ∧ c.currentLevel ≤ c.capacity) :
    ∀ c ∈ (theftPhase r t comps alerts).1,
      0 ≤ c.currentLevel ∧ c.currentLevel ≤ c.capacity := by
  unfold theftPhase
  split_ifs with h1 h2 <;>
    try exact h
  rcases hv : (List.filter (fun c => c.isOffloading) comps).get?
      (⌊r.theftVictimU * ((List.filter (fun c => c.isOffloading) comps).length : ℚ)⌋).toNat
    with _ | victim <;> simp only [hv]
  · split_ifs with h2 <;> exact h
  · split_ifs with h2
    · intro x hx
      rcases List.mem_map.mp hx with ⟨c, hc, rfl⟩
      split
      · have hcb := h c hc
        have hst : (0:ℚ) ≤ ((⌊r.theftAmountU * 100⌋ : ℤ) : ℚ) + 50 := by
          have hz : (0:ℤ) ≤ ⌊r.theftAmountU * 100⌋ := Int.floor_nonneg.mpr (by nlinarith)
          have hq : (0:ℚ) ≤ ((⌊r.theftAmountU * 100⌋ : ℤ) : ℚ) := by exact_mod_cast hz
          linarith
        constructor
        · exact le_max_left 0 _
        · apply max_le
          · linarith [hcb.1, hcb.2]
          · linarith [hcb.1, hcb.2]
      · exact h c hc
    · exact h

/-- C3: across a tick, every compartment keeps `0 ≤ currentLevel ≤
capacity`: draining is capped at the 5% reserve, theft is clamped at 0,
and uplift refills are capped at the capacity. -/
theorem compartment_bounds_invariant (r : TickRands) (t : Truck) (al : List Alert)
    (hi : List FuelLossEntry) (hv : ValidRands r)
    (h : ∀ c ∈ t.compartments, 0 ≤ c.currentLevel ∧ c.currentLevel ≤ c.capacity) :
    ∀ c ∈ (tickTruck r t al hi).1.compartments,
      0 ≤ c.currentLevel ∧ c.currentLevel ≤ c.capacity := by
  obtain ⟨v1, v2, v3, v4, v5, v6, v7, v8, v9, v10, v11, v12, v13, v14, v15, v16, v17, v18,
    v19, v20⟩ := hv
  rcases hs : t.status with _ | _ | _ | _ | _
  · rw [tickTruck_idle r t al hi hs]
    exact h
  · rw [tickTruck_assigned r t al hi hs]
    intro c hc
    obtain ⟨x, hx, he1, he2⟩ := allocateTargets_levels r.targetU t.compartments 0 _ c hc
    rw [he1, he2]
    exact h x hx
  · rw [tickTruck_delivering_truck r t al hi hs]
    have hf := statusPhase_delivering_fields r t al hi hs
    show ∀ c ∈ (theftPhase r (statusPhase r t al hi).1
        (drainComps r (statusPhase r t al hi).1 0 (statusPhase r t al hi).1.compartments
          (statusPhase r t al hi).1.currentAssignment (statusPhase r t al hi).2.1).1
        (drainComps r (statusPhase r t al hi).1 0 (statusPhase r t al hi).1.compartments
          (statusPhase r t al hi).1.currentAssignment (statusPhase r t al hi).2.1).2.2).1,
      0 ≤ c.currentLevel ∧ c.currentLevel ≤ c.capacity
    apply theftPhase_bounds _ _ _ _ v13.1
    apply drainComps_bounds
    rw [hf.1]
    exact h
  · rw [tickTruck_uplifting r t al hi hs]
    intro c hc
    have hc' : c ∈ upliftComps r.fillU 0 t.compartments := by
      rw [← upliftStep_compartments r t]
      exact hc
    exact upliftComps_bounds r.fillU (fun i => (v3 i).1) t.compartments 0 h c hc'
  · rw [tickTruck_completed r t al hi hs]
    intro c hc
    rcases List.mem_map.mp hc with ⟨x, hx, rfl⟩
    exact h x hx

/-- Witness for `compartment_bounds_invariant` at the TK002-patterned
delivering fixture and draw 1/2. -/
theorem compartment_bounds_invariant_witness :
    ValidRands rHalf ∧
    (∀ c ∈ truckDelivering.compartments, 0 ≤ c.currentLevel ∧ c.currentLevel ≤ c.capacity) ∧
    (∀ c ∈ (tickTruck rHalf truckDelivering [] []).1.compartments,
      0 ≤ c.currentLevel ∧ c.currentLevel ≤ c.capacity) :=
  ⟨validRands_rHalf, by norm_num [truckDelivering],
   compartment_bounds_invariant rHalf truckDelivering [] [] validRands_rHalf
     (by norm_num [truckDelivering])⟩

theorem tickTruck_hist_eq (r : TickRands) (t : Truck) (al : List Alert)
    (hi : List FuelLossEntry) :
    (tickTruck r t al hi).2.2 = (statusPhase r t al hi).2.2 := rfl

theorem tickTruck_status_delivering (r : TickRands) (t : Truck) (al : List Alert)
    (hi : List FuelLossEntry) (h : t.status = .delivering) :
    (tickTruck r t al hi).1.status = (statusPhase r t al hi).1.status := by
  obtain ⟨tid, tname, tstatus, tpos, tdest, tsp, tcomps, tca, tlts, ttrail⟩ := t
  dsimp only at h
  subst h
  rfl

theorem statusPhase_arrival_some (r : TickRands) (t : Truck) (al : List Alert)
    (hi : List FuelLossEntry) (dest : Destination) (asg : CurrentAssignment)
    (h1 : t.status = .delivering) (h2 : t.destination = some dest)
    (h3 : reachedDest (moveToward r t.position dest) dest = true)
    (h4 : t.currentAssignment = some asg) :
    (statusPhase r t al hi).1.status = TruckStatus.completed ∧
    (statusPhase r t al hi).2.2 = pushFuelLoss
      { timestamp := r.now, truckId := t.id, assignedLiters := asg.assignedLiters,
        deliveredLiters := sumDelivered t.compartments,
        lossLiters := asg.provisionalLossLiters,
        lossPercent := if 0 < asg.assignedLiters
          then asg.provisionalLossLiters / asg.assignedLiters * 100 else 0 } hi := by
  obtain ⟨tid, tname, tstatus, tpos, tdest, tsp, tcomps, tca, tlts, ttrail⟩ := t
  dsimp only at h1 h2 h3 h4 ⊢
  subst h1
  subst h2
  subst h4
  simp only [statusPhase]
  rw [if_pos h3]
  exact ⟨rfl, rfl⟩

theorem statusPhase_arrival_none (r : TickRands) (t : Truck) (al : List Alert)
    (hi : List FuelLossEntry) (dest : Destination)
    (h1 : t.status = .delivering) (h2 : t.destination = some dest)
    (h3 : reachedDest (moveToward r t.position dest) dest = true)
    (h4 : t.currentAssignment = none) :
    (statusPhase r t al hi).1.status = TruckStatus.completed ∧
    (statusPhase r t al hi).2.2 = hi := by
  obtain ⟨tid, tname, tstatus, tpos, tdest, tsp, tcomps, tca, tlts, ttrail⟩ := t
  dsimp only at h1 h2 h3 h4 ⊢
  subst h1
  subst h2
  subst h4
  simp only [statusPhase]
  rw [if_pos h3]
  exact ⟨rfl, rfl⟩

/-- C5 (amended): a tick on which a delivering truck holding a
`currentAssignment` comes within the 0.005-degree threshold of its
destination appends exactly one new entry to the fuel-loss history
(evicting beyond 500), and in that entry `lossPercent = (lossLiters /
assignedLiters) * 100` when `assignedLiters > 0`. A completing truck
without a `currentAssignment` appends no entry. -/
theorem completion_history_spec (r : TickRands) (t : Truck) (al : List Alert)
    (hi : List FuelLossEntry) (dest : Destination) (asg : CurrentAssignment)
    (h1 : t.status = .delivering) (h2 : t.destination = some dest)
    (h3 : reachedDest (moveToward r t.position dest) dest = true)
    (h4 : t.currentAssignment = some asg) (h5 : 0 < asg.assignedLiters) :
    (tickTruck r t al hi).1.status = TruckStatus.completed ∧
    (tickTruck r t al hi).2.2 =
      jsSliceLast 499 hi ++
        [{ timestamp := r.now, truckId := t.id, assignedLiters := asg.assignedLiters,
           deliveredLiters := sumDelivered t.compartments,
           lossLiters := asg.provisionalLossLiters,
           lossPercent := asg.provisionalLossLiters / asg.assignedLiters * 100 }] := by
  have ha := statusPhase_arrival_some r t al hi dest asg h1 h2 h3 h4
  constructor
  · rw [tickTruck_status_delivering r t al hi h1]
    exact ha.1
  · rw [tickTruck_hist_eq, ha.2]
    simp only [pushFuelLoss]
    rw [if_pos h5]

/-- Counterexample to C5 as stated: a delivering truck without a
`currentAssignment` (the seed state of demo truck TK002) reaches its
destination — the tick sets status `completed` — yet the fuel-loss
history receives no entry at all. -/
theorem completion_history_counterexample :
    (tickTruck rHalf truckArriveNoAsg [] []).1.status = TruckStatus.completed ∧
    (tickTruck rHalf truckArriveNoAsg [] []).2.2 = [] := by
  have h3 : reachedDest (moveToward rHalf truckArriveNoAsg.position destQurum) destQurum
      = true := by
    norm_num [reachedDest, moveToward, truckArriveNoAsg, destQurum, rHalf]
  have ha := statusPhase_arrival_none rHalf truckArriveNoAsg [] [] destQurum rfl rfl h3 rfl
  constructor
  · rw [tickTruck_status_delivering rHalf truckArriveNoAsg [] [] rfl]
    exact ha.1
  · exact ha.2

/-- Witness for `completion_history_spec` at the arriving fixture truck
holding the assignment (3000 L, 30 L provisional loss) and draw 1/2. -/
theorem completion_history_spec_witness :
    reachedDest (moveToward rHalf truckArrive.position destQurum) destQurum = true ∧
    (0 : ℚ) < 3000 ∧
    (tickTruck rHalf truckArrive [] []).1.status = TruckStatus.completed :=
  ⟨by norm_num [reachedDest, moveToward, truckArrive, destQurum, rHalf],
   by norm_num,
   (completion_history_spec rHalf truckArrive [] [] destQurum ⟨3000, [("C1", 2000)], 30⟩
     rfl rfl (by norm_num [reachedDest, moveToward, truckArrive, destQurum, rHalf]) rfl
     (by norm_num)).1⟩

theorem jsSliceLast_length_le {α : Type} (n : ℕ) (l : List α) :
    (jsSliceLast n l).length ≤ n := by
  simp only [jsSliceLast, List.length_drop]
  omega

theorem pushAlert_length_le (a : Alert) (l : List Alert) : (pushAlert a l).length ≤ 50 := by
  simp only [pushAlert, List.length_cons, List.length_take]
  omega

theorem pushFuelLoss_length_le (e : FuelLossEntry) (l : List FuelLossEntry) :
    (pushFuelLoss e l).length ≤ 500 := by
  have hs := jsSliceLast_length_le 499 l
  simp only [pushFuelLoss, List.length_append, List.length_cons, List.length_nil]
  omega

theorem ite_pushAlert_le {c : Prop} [Decidable c] (a : Alert) (l : List Alert)
    (h : l.length ≤ 50) : (if c then pushAlert a l else l).length ≤ 50 := by
  split_ifs
  · exact pushAlert_length_le a l
  · exact h

theorem drainComps_alerts_le (r : TickRands) (t : Truck) :
    ∀ (cs : List Compartment) (i : ℕ) (asg : Option CurrentAssignment) (al : List Alert),
      al.length ≤ 50 → (drainComps r t i cs asg al).2.2.length ≤ 50 := by
  intro cs
  induction cs with
  | nil =>
    intro i asg al h
    simpa [drainComps] using h
  | cons c cs ih =>
    intro i asg al h
    simp only [drainComps]
    rcases hd : (drainComp (r.drainU i) (r.lossRollU i) (r.lossPctU i) c).2 with _ | lp <;>
      simp only [hd]
    · exact ih _ _ _ h
    · exact ih _ _ _ (ite_pushAlert_le _ _ h)

theorem theftPhase_alerts_le (r : TickRands) (t : Truck) (comps : List Compartment)
    (alerts : List Alert) (h : alerts.length ≤ 50) :
    (theftPhase r t comps alerts).2.length ≤ 50 := by
  unfold theftPhase
  split_ifs <;> try exact h
  rcases hv : (List.filter (fun c => c.isOffloading) comps).get?
      (⌊r.theftVictimU * ((List.filter (fun c => c.isOffloading) comps).length : ℚ)⌋).toNat
    with _ | victim <;> simp only [hv]
  · split_ifs <;> exact h
  · split_ifs
    · exact pushAlert_length_le _ _
    · exact h

theorem deliverPhase_alerts_le (r : TickRands) (t : Truck) (alerts : List Alert)
    (h : alerts.length ≤ 50) : (deliverPhase r t alerts).2.length ≤ 50 := by
  unfold deliverPhase
  dsimp only
  apply ite_pushAlert_le
  apply ite_pushAlert_le
  exact theftPhase_alerts_le r t _ _
    (drainComps_alerts_le r t t.compartments 0 t.currentAssignment alerts h)

theorem statusPhase_alerts_le (r : TickRands) (t : Truck) (al : List Alert)
    (hi : List FuelLossEntry) (h : al.length ≤ 50) :
    (statusPhase r t al hi).2.1.length ≤ 50 := by
  obtain ⟨tid, tname, tstatus, tpos, tdest, tsp, tcomps, tca, tlts, ttrail⟩ := t
  cases tstatus <;> cases tdest <;> simp only [statusPhase] <;> try exact h
  split
  · cases tca with
    | none => exact h
    | some asg =>
      dsimp only
      exact ite_pushAlert_le _ _ h
  · exact h

theorem statusPhase_hist_le (r : TickRands) (t : Truck) (al : List Alert)
    (hi : List FuelLossEntry) (h : hi.length ≤ 500) :
    (statusPhase r t al hi).2.2.length ≤ 500 := by
  obtain ⟨tid, tname, tstatus, tpos, tdest, tsp, tcomps, tca, tlts, ttrail⟩ := t
  cases tstatus <;> cases tdest <;> simp only [statusPhase] <;> try exact h
  split
  · cases tca with
    | none => exact h
    | some asg =>
      dsimp only
      exact pushFuelLoss_length_le _ _
  · exact h

theorem tickTruck_alerts_le (r : TickRands) (t : Truck) (al : List Alert)
    (hi : List FuelLossEntry) (hal : al.length ≤ 50) :
    (tickTruck r t al hi).2.1.length ≤ 50 := by
  unfold tickTruck
  dsimp only
  apply ite_pushAlert_le
  apply ite_pushAlert_le
  split_ifs with hd
  · exact deliverPhase_alerts_le _ _ _ (statusPhase_alerts_le r t al hi hal)
  · exact statusPhase_alerts_le r t al hi hal

theorem tickTruck_trail (r : TickRands) (t : Truck) (al : List Alert)
    (hi : List FuelLossEntry) :
    (tickTruck r t al hi).1.trail =
      jsSliceLast 20 t.trail ++ [(tickTruck r t al hi).1.position] := rfl

/-- C2 (amended): on every tick the trail is rebuilt as the 20 most
recently retained positions plus the current position — hence at most 21
entries (not 20: `[...trail.slice(-20), pos]` can reach 21) with
oldest-first eviction — while the alerts list is kept within 50 entries
(newest prepended, tail truncated) and the fuel-loss history within 500
entries (newest appended, oldest dropped). -/
theorem stream_bounds_spec (r : TickRands) (t : Truck) (al : List Alert)
    (hi : List FuelLossEntry) (hal : al.length ≤ 50) (hhi : hi.length ≤ 500) :
    (tickTruck r t al hi).1.trail =
      jsSliceLast 20 t.trail ++ [(tickTruck r t al hi).1.position] ∧
    (tickTruck r t al hi).1.trail.length ≤ 21 ∧
    (tickTruck r t al hi).2.1.length ≤ 50 ∧
    (tickTruck r t al hi).2.2.length ≤ 500 := by
  refine ⟨tickTruck_trail r t al hi, ?_, tickTruck_alerts_le r t al hi hal, ?_⟩
  · rw [tickTruck_trail r t al hi]
    have hs := jsSliceLast_length_le 20 t.trail
    simp only [List.length_append, List.length_cons, List.length_nil]
    omega
  · rw [tickTruck_hist_eq]
    exact statusPhase_hist_le r t al hi hhi

/-- Counterexample to C2 as stated: one tick on the fixture truck whose
trail already holds 20 entries leaves a trail of 21 entries, exceeding
the claimed 20. -/
theorem trail_bound_counterexample :
    ¬ ((tickTruck rHalf truckTrail20 [] []).1.trail.length ≤ 20) := by
  intro hle
  rw [tickTruck_trail rHalf truckTrail20 [] []] at hle
  simp [jsSliceLast, truckTrail20] at hle

/-- Witness for `stream_bounds_spec` at the uplifting fixture truck,
empty alert and history streams, and draw 1/2. -/
theorem stream_bounds_spec_witness :
    ([] : List Alert).length ≤ 50 ∧ ([] : List FuelLossEntry).length ≤ 500 ∧
    (tickTruck rHalf truckUplift [] []).1.trail.length ≤ 21 :=
  ⟨by norm_num, by norm_num,
   (stream_bounds_spec rHalf truckUplift [] [] (by norm_num) (by norm_num)).2.1⟩

theorem needTicks_le_zero_of_level {c : Compartment} (h : c.capacity * 0.95 ≤ c.currentLevel) :
    ⌈(c.capacity * 0.95 - c.currentLevel) / 40⌉ ≤ 0 := by
  rw [show ((0:ℤ)) = ((0:ℤ)) from rfl, Int.ceil_le]
  push_cast
  rw [div_le_iff (by norm_num : (0:ℚ) < 40)]
  nlinarith

theorem needTicks_eq_zero_iff (c : Compartment) :
    needTicks c = 0 ↔ c.capacity * 0.95 ≤ c.currentLevel := by
  unfold needTicks
  constructor
  · intro h
    have hce : ⌈(c.capacity * 0.95 - c.currentLevel) / 40⌉ ≤ 0 := by omega
    rw [Int.ceil_le] at hce
    push_cast at hce
    rw [div_le_iff (by norm_num : (0:ℚ) < 40)] at hce
    linarith
  · intro h
    have := needTicks_le_zero_of_level h
    omega

theorem fill_ge_forty {u : ℚ} (hu : 0 ≤ u) : (40:ℚ) ≤ ((⌊u * 40⌋ : ℤ) : ℚ) + 40 := by
  have hz : (0:ℤ) ≤ ⌊u * 40⌋ := Int.floor_nonneg.mpr (by nlinarith)
  have hq : (0:ℚ) ≤ ((⌊u * 40⌋ : ℤ) : ℚ) := by exact_mod_cast hz
  linarith

theorem upliftComp_need {u : ℚ} (hu : 0 ≤ u) (c : Compartment)
    (hb : c.currentLevel ≤ c.capacity) (hcap : 0 ≤ c.capacity) :
    needTicks (upliftComp u c) ≤ needTicks c - 1 := by
  have hfl := fill_ge_forty hu
  unfold upliftComp
  split_ifs with h1
  · unfold needTicks
    dsimp only
    rcases le_or_lt c.capacity (c.currentLevel + (((⌊u * 40⌋ : ℤ) : ℚ) + 40)) with hcl | hcl
    · rw [min_eq_left hcl]
      have hce : ⌈(c.capacity * 0.95 - c.capacity) / 40⌉ ≤ 0 := by
        rw [Int.ceil_le]
        push_cast
        rw [div_le_iff (by norm_num : (0:ℚ) < 40)]
        nlinarith
      omega
    · rw [min_eq_right hcl.le]
      have hyx : c.capacity * 0.95 - (c.currentLevel + (((⌊u * 40⌋ : ℤ) : ℚ) + 40)) ≤
          c.capacity * 0.95 - c.currentLevel - 40 := by linarith
      have hstep := (div_le_div_right (show (0:ℚ) < 40 by norm_num)).mpr hyx
      have heq : (c.capacity * 0.95 - c.currentLevel - 40) / 40 =
          (c.capacity * 0.95 - c.currentLevel) / 40 - 1 := by ring
      rw [heq] at hstep
      have hc2 := Int.ceil_mono hstep
      rw [Int.ceil_sub_one] at hc2
      omega
  · push_neg at h1
    unfold needTicks
    dsimp only
    have hce : ⌈(c.capacity * 0.95 - c.currentLevel) / 40⌉ ≤ 0 := by
      rw [Int.ceil_le]
      push_cast
      rw [div_le_iff (by norm_num : (0:ℚ) < 40)]
      nlinarith
    omega

theorem upliftComp_full {u : ℚ} (hu : 0 ≤ u) (c : Compartment)
    (hb : c.currentLevel ≤ c.capacity) (hcap : 0 ≤ c.capacity) (hneed : needTicks c ≤ 1) :
    (upliftComp u c).capacity * 0.95 ≤ (upliftComp u c).currentLevel := by
  have hfl := fill_ge_forty hu
  have hgap : c.capacity * 0.95 - c.currentLevel ≤ 40 := by
    unfold needTicks at hneed
    have hce : ⌈(c.capacity * 0.95 - c.currentLevel) / 40⌉ ≤ 1 := by omega
    rw [show ((1:ℤ)) = ((1:ℤ)) from rfl, Int.ceil_le] at hce
    push_cast at hce
    rw [div_le_iff (by norm_num : (0:ℚ) < 40)] at hce
    linarith
  unfold upliftComp
  split_ifs with h1
  · dsimp only
    apply le_min
    · nlinarith
    · linarith
  · dsimp only
    nlinarith

theorem upliftComp_lecap {u : ℚ} (c : Compartment)
    (hb : c.currentLevel ≤ c.capacity) (hcap : 0 ≤ c.capacity) :
    (upliftComp u c).currentLevel ≤ (upliftComp u c).capacity ∧
    0 ≤ (upliftComp u c).capacity := by
  unfold upliftComp
  split_ifs with h1
  · exact ⟨min_le_left _ _, hcap⟩
  · exact ⟨hb, hcap⟩

theorem upliftComps_lecap (fill : ℕ → ℚ) :
    ∀ (cs : List Compartment) (i : ℕ),
      (∀ c ∈ cs, c.currentLevel ≤ c.capacity ∧ 0 ≤ c.capacity) →
      ∀ x ∈ upliftComps fill i cs, x.currentLevel ≤ x.capacity ∧ 0 ≤ x.capacity := by
  intro cs
  induction cs with
  | nil =>
    intro i h x hx
    simp [upliftComps] at hx
  | cons c cs ih =>
    intro i h x hx
    simp only [upliftComps] at hx
    rcases List.mem_cons.mp hx with hh | hh
    · subst hh
      exact upliftComp_lecap c (h c (List.mem_cons_self c cs)).1 (h c (List.mem_cons_self c cs)).2
    · exact ih _ (fun y hy => h y (List.mem_cons_of_mem c hy)) x hh

theorem upliftComps_need (fill : ℕ → ℚ) (hf : ∀ i, 0 ≤ fill i) :
    ∀ (cs : List Compartment) (i : ℕ) (m : ℕ),
      (∀ c ∈ cs, c.currentLevel ≤ c.capacity ∧ 0 ≤ c.capacity) →
      (∀ c ∈ cs, needTicks c ≤ m) →
      ∀ x ∈ upliftComps fill i cs, needTicks x ≤ m - 1 := by
  intro cs
  induction cs with
  | nil =>
    intro i m hb hn x hx
    simp [upliftComps] at hx
  | cons c cs ih =>
    intro i m hb hn x hx
    simp only [upliftComps] at hx
    rcases List.mem_cons.mp hx with hh | hh
    · subst hh
      have h1 := upliftComp_need (hf i) c (hb c (List.mem_cons_self c cs)).1
        (hb c (List.mem_cons_self c cs)).2
      have h2 := hn c (List.mem_cons_self c cs)
      omega
    · exact ih _ _ (fun y hy => hb y (List.mem_cons_of_mem c hy))
        (fun y hy => hn y (List.mem_cons_of_mem c hy)) x hh

theorem upliftComps_full (fill : ℕ → ℚ) (hf : ∀ i, 0 ≤ fill i) :
    ∀ (cs : List Compartment) (i : ℕ),
      (∀ c ∈ cs, c.currentLevel ≤ c.capacity ∧ 0 ≤ c.capacity) →
      (∀ c ∈ cs, needTicks c ≤ 1) →
      ∀ x ∈ upliftComps fill i cs, x.capacity * 0.95 ≤ x.currentLevel := by
  intro cs
  induction cs with
  | nil =>
    intro i hb hn x hx
    simp [upliftComps] at hx
  | cons c cs ih =>
    intro i hb hn x hx
    simp only [upliftComps] at hx
    rcases List.mem_cons.mp hx with hh | hh
    · subst hh
      exact upliftComp_full (hf i) c (hb c (List.mem_cons_self c cs)).1
        (hb c (List.mem_cons_self c cs)).2 (hn c (List.mem_cons_self c cs))
    · exact ih _ (fun y hy => hb y (List.mem_cons_of_mem c hy))
        (fun y hy => hn y (List.mem_cons_of_mem c hy)) x hh

theorem foldr_max_le_iff (l : List ℕ) (m : ℕ) :
    l.foldr max 0 ≤ m ↔ ∀ x ∈ l, x ≤ m := by
  induction l with
  | nil => simp
  | cons a l ih => simp [List.foldr_cons, max_le_iff, ih]

theorem upliftStep_split (r : TickRands) (t : Truck) :
    (upliftStep r t =
        { t with
          compartments := upliftComps r.fillU 0 t.compartments,
          status := .idle, destination := none, startPoint := none } ∧
      ∀ c ∈ upliftComps r.fillU 0 t.compartments, c.capacity * 0.95 ≤ c.currentLevel) ∨
    (upliftStep r t = { t with compartments := upliftComps r.fillU 0 t.compartments } ∧
      ¬ ∀ c ∈ upliftComps r.fillU 0 t.compartments, c.capacity * 0.95 ≤ c.currentLevel) := by
  unfold upliftStep
  dsimp only
  split_ifs with hall
  · left
    refine ⟨rfl, ?_⟩
    simpa [List.all_eq_true, decide_eq_true_eq] using hall
  · right
    refine ⟨rfl, ?_⟩
    simpa [List.all_eq_true, decide_eq_true_eq] using hall

theorem uplift_reaches_idle (n : ℕ) :
    ∀ (R : ℕ → TickRands) (t : Truck), (∀ k, ValidRands (R k)) →
      t.status = .uplifting →
      (∀ c ∈ t.compartments, c.currentLevel ≤ c.capacity ∧ 0 ≤ c.capacity) →
      upliftBound t ≤ n →
      ∃ j, j ≤ max 1 n ∧ (tickIter R j t).status = TruckStatus.idle ∧
        (tickIter R j t).destination = none ∧ (tickIter R j t).startPoint = none := by
  induction n with
  | zero =>
    intro R t hvR hs hb hbound
    have hf : ∀ i, 0 ≤ (R 0).fillU i := fun i => ((hvR 0).2.2.1 i).1
    have hneed : ∀ c ∈ t.compartments, needTicks c ≤ 1 := by
      intro c hc
      have := (foldr_max_le_iff (t.compartments.map needTicks) 0).mp hbound _
        (List.mem_map_of_mem needTicks hc)
      omega
    have hfull := upliftComps_full (R 0).fillU hf t.compartments 0 hb hneed
    refine ⟨1, by omega, ?_⟩
    have ht1 : tickIter R 1 t =
        { upliftStep (R 0) t with trail := pushTrail (upliftStep (R 0) t).position t.trail } :=
      tickTruck_uplifting (R 0) t [] [] hs
    rcases upliftStep_split (R 0) t with ⟨heq, _⟩ | ⟨_, hnfull⟩
    · rw [ht1, heq]
      exact ⟨rfl, rfl, rfl⟩
    · exact absurd hfull hnfull
  | succ n ih =>
    intro R t hvR hs hb hbound
    by_cases hble : upliftBound t ≤ n
    · obtain ⟨j, hj, hres⟩ := ih R t hvR hs hb hble
      refine ⟨j, ?_, hres⟩
      omega
    · have hf : ∀ i, 0 ≤ (R 0).fillU i := fun i => ((hvR 0).2.2.1 i).1
      have hneed : ∀ c ∈ t.compartments, needTicks c ≤ n + 1 := by
        intro c hc
        exact (foldr_max_le_iff (t.compartments.map needTicks) (n + 1)).mp hbound _
          (List.mem_map_of_mem needTicks hc)
      have ht1 : (tickTruck (R 0) t [] []).1 =
          { upliftStep (R 0) t with
            trail := pushTrail (upliftStep (R 0) t).position t.trail } :=
        tickTruck_uplifting (R 0) t [] [] hs
      rcases upliftStep_split (R 0) t with ⟨heq, _⟩ | ⟨heq, hnfull⟩
      · refine ⟨1, by omega, ?_⟩
        rw [show tickIter R 1 t = (tickTruck (R 0) t [] []).1 from rfl, ht1, heq]
        exact ⟨rfl, rfl, rfl⟩
      · rcases Nat.eq_zero_or_pos n with hn0 | hn1
        · subst hn0
          have hneed1 : ∀ c ∈ t.compartments, needTicks c ≤ 1 := hneed
          exact absurd (upliftComps_full (R 0).fillU hf t.compartments 0 hb hneed1) hnfull
        · have hs1 : ((tickTruck (R 0) t [] []).1).status = .uplifting := by
            rw [ht1, heq]
            exact hs
          have hb1 : ∀ c ∈ ((tickTruck (R 0) t [] []).1).compartments,
              c.currentLevel ≤ c.capacity ∧ 0 ≤ c.capacity := by
            rw [ht1, heq]
            exact upliftComps_lecap (R 0).fillU t.compartments 0 hb
          have hbound1 : upliftBound ((tickTruck (R 0) t [] []).1) ≤ n := by
            have hcomps : ((tickTruck (R 0) t [] []).1).compartments =
                upliftComps (R 0).fillU 0 t.compartments := by
              rw [ht1, heq]
            unfold upliftBound
            rw [hcomps]
            rw [foldr_max_le_iff]
            intro x hx
            rcases List.mem_map.mp hx with ⟨y, hy, rfl⟩
            have := upliftComps_need (R 0).fillU hf t.compartments 0 (n + 1) hb hneed y hy
            omega
          obtain ⟨j, hj, hres⟩ := ih (fun k => R (k + 1)) ((tickTruck (R 0) t [] []).1)
            (fun k => hvR (k + 1)) hs1 hb1 hbound1
          refine ⟨j + 1, ?_, hres⟩
          have hm1 : max 1 n = n := max_eq_right hn1
          have hm2 : max 1 (n + 1) = n + 1 := max_eq_right (by omega)
          omega

/-- C6 (amended): for every uplifting truck and every sequence of valid
refill draws, the truck reaches `idle` — with `destination` and
`startPoint` cleared — within `max 1 B` ticks, where `B` is the worst
case over compartments of `⌈(capacity * 0.95 - currentLevel) / 40⌉`
(the extra `max 1` covers a truck whose compartments are already at
95%, which still needs the one tick on which the full-check runs). -/
theorem uplift_termination (R : ℕ → TickRands) (t : Truck)
    (hvR : ∀ k, ValidRands (R k)) (hs : t.status = .uplifting)
    (hb : ∀ c ∈ t.compartments, c.currentLevel ≤ c.capacity ∧ 0 ≤ c.capacity) :
    ∃ j, j ≤ max 1 (upliftBound t) ∧ (tickIter R j t).status = TruckStatus.idle ∧
      (tickIter R j t).destination = none ∧ (tickIter R j t).startPoint = none :=
  uplift_reaches_idle (upliftBound t) R t hvR hs hb le_rfl

/-- Counterexample to C6 as stated: for the uplifting fixture truck whose
compartment is already full, the claimed bound `⌈(0.95 * 5000 - 5000) /
40⌉` truncates to 0 ticks, yet after 0 ticks the truck is still
`uplifting`, not `idle`. -/
theorem uplift_bound_counterexample :
    truckUpliftFull.status = TruckStatus.uplifting ∧
    upliftBound truckUpliftFull = 0 ∧
    ¬ ((tickIter (fun _ => rHalf) 0 truckUpliftFull).status = TruckStatus.idle) := by
  refine ⟨rfl, ?_, by decide⟩
  norm_num [upliftBound, needTicks, truckUpliftFull]
  rw [Int.ceil_le]
  norm_num

/-- Witness for `uplift_termination` at the TK005-patterned uplifting
fixture and constant draw 1/2. -/
theorem uplift_termination_witness :
    truckUplift.status = TruckStatus.uplifting ∧
    (∀ c ∈ truckUplift.compartments, c.currentLevel ≤ c.capacity ∧ 0 ≤ c.capacity) ∧
    ∃ j, j ≤ max 1 (upliftBound truckUplift) ∧
      (tickIter (fun _ => rHalf) j truckUplift).status = TruckStatus.idle ∧
      (tickIter (fun _ => rHalf) j truckUplift).destination = none ∧
      (tickIter (fun _ => rHalf) j truckUplift).startPoint = none :=
  ⟨rfl, by norm_num [truckUplift],
   uplift_termination (fun _ => rHalf) truckUplift (fun _ => validRands_rHalf) rfl
     (by norm_num [truckUplift])⟩
